import Mathlib

/-!
Verification of the natural-language command parser and reference resolver of
the Slack integration backend, embedded from
`src/app/api/integrations/slack/send-message/route.ts` (the variant at lines
385-473, whose `parseAICommand` performs synonym-table channel resolution, and
its `POST` handler's SlackService fallback path at lines 562-604).

The parser is plain string processing over JavaScript regular expressions.  We
embed it shallowly: strings are `List Char`, the two command regexes and the
inner channel regex are transcribed into a small regex AST `RE`, and a
backtracking matcher `matchRE` enumerates matches in JavaScript priority order
(ordered alternation, greedy/lazy quantifiers).  `String.prototype.match` with
a non-global regex returns the match at the leftmost matching start position,
which `searchRE` implements.  Case folding is modelled on ASCII (the command
strings involved are ASCII; the code lower-cases the whole command before
matching, so the regex `i` flags are inert and are dropped).  The JavaScript
object literal `channelMappings` is modelled as a finite association list
for its own keys, backed by a second table for the inherited
`Object.prototype` members that a member access reaches through the
prototype chain: those members are truthy under the code's
`if (channelMappings[cleanChannel])` test and the value they substitute is
recorded in its template-literal stringification.
-/

namespace SlackAI

/-- Strings are modelled as lists of characters. -/
abbrev Str := List Char

/-- Capture groups of a regex match: group index paired with captured text. -/
abbrev Caps := List (Nat × Str)

/-- Backtick character (U+0060), written via its code point. -/
def backtick : Char := Char.ofNat 96

/-- Characters matched by the JavaScript `\s` class (WhiteSpace plus
LineTerminator), which is also the set trimmed by `String.prototype.trim`. -/
def wsChars : Str :=
  [' ', '\t', '\n', '\x0b', '\x0c', '\r',
   Char.ofNat 0xa0, Char.ofNat 0x1680,
   Char.ofNat 0x2000, Char.ofNat 0x2001, Char.ofNat 0x2002, Char.ofNat 0x2003,
   Char.ofNat 0x2004, Char.ofNat 0x2005, Char.ofNat 0x2006, Char.ofNat 0x2007,
   Char.ofNat 0x2008, Char.ofNat 0x2009, Char.ofNat 0x200a,
   Char.ofNat 0x2028, Char.ofNat 0x2029, Char.ofNat 0x202f, Char.ofNat 0x205f,
   Char.ofNat 0x3000, Char.ofNat 0xfeff]

/-- JavaScript `\s`. -/
def isWs (c : Char) : Bool := wsChars.contains c

/-- The quote-character class `['"`]` of the command regexes. -/
def isQuoteChar (c : Char) : Bool := c == '\'' || c == '"' || c == backtick

/-- JavaScript `.` (without the `s` flag): any character but a line
terminator. -/
def isDotChar (c : Char) : Bool :=
  !(c == '\n' || c == '\r' || c == Char.ofNat 0x2028 || c == Char.ofNat 0x2029)

/-- Regex abstract syntax: exactly the constructs used by the three regexes of
`parseAICommand` (literals, single-character classes, sequencing, ordered
alternation, greedy option, greedy/lazy `+` over a character class, capture
groups, and the `$` anchor). -/
inductive RE where
  | lit : Str → RE
  | cls : (Char → Bool) → RE
  | seq : RE → RE → RE
  | alt : RE → RE → RE
  | opt : RE → RE
  | plus : Bool → (Char → Bool) → RE
  | group : Nat → RE → RE
  | eos : RE

/-- Backtracking matcher.  `matchRE re input` lists every way `re` can match a
prefix of `input`, as (captures, remaining suffix) pairs, in JavaScript
backtracking priority order: the first element is the match the JS engine
commits to.  `plus true p` is greedy `p+` (longest first), `plus false p` is
lazy `p+?` (shortest first); `opt` prefers presence; `alt` prefers its left
alternative. -/
def matchRE : RE → Str → List (Caps × Str)
  | .lit s, input =>
      if s.isPrefixOf input then [([], input.drop s.length)] else []
  | .cls p, input =>
      match input with
      | [] => []
      | c :: rest => if p c then [([], rest)] else []
  | .seq a b, input =>
      (matchRE a input).flatMap fun pr =>
        (matchRE b pr.2).map fun qr => (pr.1 ++ qr.1, qr.2)
  | .alt a b, input => matchRE a input ++ matchRE b input
  | .opt a, input => matchRE a input ++ [([], input)]
  | .plus greedy p, input =>
      let k := (input.takeWhile p).length
      let ns := if greedy then (List.range k).map (fun i => k - i)
                else (List.range k).map (fun i => i + 1)
      ns.map fun n => (([] : Caps), input.drop n)
  | .group i a, input =>
      (matchRE a input).map fun pr =>
        ((i, input.take (input.length - pr.2.length)) :: pr.1, pr.2)
  | .eos, input => if input.isEmpty then [([], ([] : Str))] else []

/-- JavaScript `String.prototype.match` with a non-global regex: scan start
positions left to right and return the captures of the first match found, or
`none` when the regex matches nowhere. -/
def searchRE (re : RE) (input : Str) : Option Caps :=
  match matchRE re input with
  | pr :: _ => some pr.1
  | [] =>
      match input with
      | [] => none
      | _ :: rest => searchRE re rest

/-- Captured text of group `i` (JS `match[i]`). -/
def getCap (caps : Caps) (i : Nat) : Option Str :=
  (caps.find? fun pr => pr.1 == i).map fun pr => pr.2

/-- ASCII model of `String.prototype.toLowerCase` (`Char.toLower` maps A-Z to
a-z and fixes everything else). -/
def jsToLower (s : Str) : Str := s.map Char.toLower

/-- `String.prototype.trim`: strip leading and trailing whitespace. -/
def jsTrim (s : Str) : Str :=
  ((s.dropWhile isWs).reverse.dropWhile isWs).reverse

/-! ### The channel-cleaning chain (route.ts lines 414-421)

`channel.toLowerCase().replace(/^(the\s+|a\s+|an\s+)/, '').replace(/\s+channel$/, '')
.replace(/\s+room$/, '').replace(/\s+/, '-').trim()` -/

/-- Replace of `/^(the\s+|a\s+|an\s+)/` by the empty string: the alternatives
are tried in order and each requires the article to be followed by at least
one whitespace character; the greedy `\s+` consumes the whole run. -/
def stripArticle (s : Str) : Str :=
  if "the".data.isPrefixOf s && (s.drop 3).head?.any isWs then
    (s.drop 3).dropWhile isWs
  else if "a".data.isPrefixOf s && (s.drop 1).head?.any isWs then
    (s.drop 1).dropWhile isWs
  else if "an".data.isPrefixOf s && (s.drop 2).head?.any isWs then
    (s.drop 2).dropWhile isWs
  else s

/-- Replace of `/\s+WORD$/` by the empty string (for `WORD` = `channel` or
`room`, which contain no whitespace): the match, when it exists, is the final
occurrence of `WORD` together with the entire adjacent run of whitespace
before it, so the replacement drops the suffix `WORD` and then every trailing
whitespace character, provided at least one was present. -/
def stripTrailingWord (w : Str) (s : Str) : Str :=
  if w.isSuffixOf s then
    let pre := s.take (s.length - w.length)
    let stripped := (pre.reverse.dropWhile isWs).reverse
    if stripped.length < pre.length then stripped else s
  else s

/-- Replace of `/\s+/` by `"-"` WITHOUT the global flag: only the leftmost
run of whitespace is replaced, and by a single hyphen. -/
def replaceFirstWsRun (s : Str) : Str :=
  match s with
  | [] => []
  | c :: rest =>
      if isWs c then '-' :: rest.dropWhile isWs
      else c :: replaceFirstWsRun rest

/-- The full cleaning chain applied to a non-sigil channel phrase
(route.ts lines 414-421). -/
def cleanChannelPhrase (channel : Str) : Str :=
  jsTrim (replaceFirstWsRun
    (stripTrailingWord "room".data
      (stripTrailingWord "channel".data
        (stripArticle (jsToLower channel)))))

/-! ### Synonym table and resolution (route.ts lines 423-451) -/

/-- The object literal `channelMappings` (route.ts lines 424-444), modelled as
an association list with its literal own-properties. -/
def channelMappings : List (String × String) :=
  [("development", "dev"), ("developer", "dev"), ("developers", "dev"),
   ("programming", "dev"), ("coding", "dev"),
   ("general", "general"), ("random", "random"), ("team", "team"),
   ("announcements", "announcements"), ("announce", "announcements"),
   ("marketing", "marketing"), ("sales", "sales"),
   ("support", "support"), ("help", "support"),
   ("design", "design"), ("product", "product"),
   ("engineering", "engineering"), ("tech", "tech"), ("technology", "tech")]

/-- Stringified values of the `Object.prototype` members that the member
access `channelMappings[cleanChannel]` can reach through the prototype
chain: an object literal inherits from `Object.prototype`, whose eleven
built-in function members and `__proto__` accessor are all truthy, so the
code's `if (channelMappings[cleanChannel])` test passes on them and the
substituted value flows into the template literal `#${cleanChannel}`.  Each
member name is paired with the string its value prints as there (the
standard native-function source text; `[object Object]` for the prototype
object itself).  Only the all-lower-case names (`constructor`,
`__proto__`) are reachable from the resolver, whose key was lower-cased by
the cleaning chain. -/
def objectProtoMembers : List (String × String) :=
  [("constructor", "function Object() { [native code] }"),
   ("hasOwnProperty", "function hasOwnProperty() { [native code] }"),
   ("isPrototypeOf", "function isPrototypeOf() { [native code] }"),
   ("propertyIsEnumerable", "function propertyIsEnumerable() { [native code] }"),
   ("toLocaleString", "function toLocaleString() { [native code] }"),
   ("toString", "function toString() { [native code] }"),
   ("valueOf", "function valueOf() { [native code] }"),
   ("__defineGetter__", "function __defineGetter__() { [native code] }"),
   ("__defineSetter__", "function __defineSetter__() { [native code] }"),
   ("__lookupGetter__", "function __lookupGetter__() { [native code] }"),
   ("__lookupSetter__", "function __lookupSetter__() { [native code] }"),
   ("__proto__", "[object Object]")]

/-- The truthiness test and substitution `channelMappings[cleanChannel]`
(route.ts lines 447-449), as JavaScript member access: first the object's
own literal keys (exact match; all values non-empty strings, hence truthy),
then, on a miss, the inherited `Object.prototype` members — which are
truthy too, so the code substitutes their stringified value. -/
def lookupMapping (k : String) : Option String :=
  match (channelMappings.find? fun pr => pr.1 == k).map (fun pr => pr.2) with
  | some v => some v
  | none => (objectProtoMembers.find? fun pr => pr.1 == k).map fun pr => pr.2

/-- JavaScript `String.prototype.startsWith` for a literal prefix. -/
def strStartsWith (s pre : String) : Bool := pre.data.isPrefixOf s.data

/-- The pass-through test of route.ts line 414:
`channel.startsWith('#') || channel.startsWith('@') ||
 channel.startsWith('C') || channel.startsWith('D')`. -/
def startsWithSigil (channel : String) : Bool :=
  strStartsWith channel "#" || strStartsWith channel "@" ||
  strStartsWith channel "C" || strStartsWith channel "D"

/-- The reference-resolver block of route.ts lines 414-451: a channel phrase
that passes the sigil test is returned unchanged; otherwise it is cleaned,
looked up in the synonym table (keeping the cleaned phrase when absent), and
prefixed with `#`. -/
def resolveChannel (channel : String) : String :=
  if startsWithSigil channel then channel
  else
    let cleaned := String.mk (cleanChannelPhrase channel.data)
    let mapped :=
      match lookupMapping cleaned with
      | some v => v
      | none => cleaned
    "#" ++ mapped

/-! ### The three regexes of `parseAICommand`, transcribed -/

/-- Pattern 1 (route.ts line 389):
`/(?:hey\s+)?(?:send|message)\s+['"`]([^'"`]+)['"`]\s+to\s+(.+)/i`.
The `i` flag is inert because the command is lower-cased before matching. -/
def pattern1 : RE :=
  .seq (.opt (.seq (.lit "hey".data) (.plus true isWs)))
    (.seq (.alt (.lit "send".data) (.lit "message".data))
      (.seq (.plus true isWs)
        (.seq (.cls isQuoteChar)
          (.seq (.group 1 (.plus true fun c => !isQuoteChar c))
            (.seq (.cls isQuoteChar)
              (.seq (.plus true isWs)
                (.seq (.lit "to".data)
                  (.seq (.plus true isWs)
                    (.group 2 (.plus true isDotChar))))))))))

/-- Pattern 2 (route.ts line 458):
`/(?:tell|notify)\s+(.+?)\s+(?:that\s+)?['"`]?([^'"`]+)['"`]?$/i`. -/
def pattern2 : RE :=
  .seq (.alt (.lit "tell".data) (.lit "notify".data))
    (.seq (.plus true isWs)
      (.seq (.group 1 (.plus false isDotChar))
        (.seq (.plus true isWs)
          (.seq (.opt (.seq (.lit "that".data) (.plus true isWs)))
            (.seq (.opt (.cls isQuoteChar))
              (.seq (.group 2 (.plus true fun c => !isQuoteChar c))
                (.seq (.opt (.cls isQuoteChar)) .eos)))))))

/-- The channel-extraction regex inside the slash handling (route.ts
line 400): `/(?:in\s+)?(?:the\s+)?(.+?)(?:\s+channel)?$/`. -/
def innerChannelRE : RE :=
  .seq (.opt (.seq (.lit "in".data) (.plus true isWs)))
    (.seq (.opt (.seq (.lit "the".data) (.plus true isWs)))
      (.seq (.group 1 (.plus false isDotChar))
        (.seq (.opt (.seq (.plus true isWs) (.lit "channel".data))) .eos)))

/-! ### parseAICommand (route.ts lines 385-473) -/

/-- Successful parse result `{ message, channel }`. -/
structure ParsedCommand where
  message : String
  channel : String
deriving DecidableEq, Repr

/-- JavaScript `String.prototype.includes`: substring containment. -/
def includesSub (needle : Str) : Str → Bool
  | [] => needle.isEmpty
  | c :: rest => needle.isPrefixOf (c :: rest) || includesSub needle rest

/-- The compound-path handling of route.ts lines 396-410: when the matched
channel text contains `/`, either extract the channel name from the second
segment (when it contains the substring `channel`) or treat the first segment
as a bare username and prefix it with `@`. -/
def handleSlash (channel : String) : String :=
  if channel.data.contains '/' then
    let parts := channel.splitOn "/"
    if parts.length > 1 && includesSub "channel".data (parts.getD 1 "").data then
      match searchRE innerChannelRE (parts.getD 1 "").data with
      | some caps => String.mk (jsTrim ((getCap caps 1).getD []))
      | none => channel
    else "@" ++ parts.getD 0 ""
  else channel

/-- Lower-cased and trimmed command: `input.toLowerCase().trim()`
(route.ts line 386). -/
def normCmd (input : String) : Str := jsTrim (jsToLower input.data)

/-- Trimmed text of capture group `i` (`match[i].trim()`). -/
def capStr (caps : Caps) (i : Nat) : String :=
  String.mk (jsTrim ((getCap caps i).getD []))

/-- The pattern-1 branch (route.ts lines 392-453): `message` is the trimmed
quoted text; the trimmed target goes through slash handling and then the
resolver block. -/
def pattern1Result (caps : Caps) : ParsedCommand :=
  { message := capStr caps 1
    channel := resolveChannel (handleSlash (capStr caps 2)) }

/-- The pattern-2 branch (route.ts lines 461-471): the trimmed target gets a
`#` prefix unless it passes the sigil test; no cleaning and no synonym
lookup. -/
def pattern2Result (caps : Caps) : ParsedCommand :=
  let channel := capStr caps 1
  { message := capStr caps 2
    channel := if startsWithSigil channel then channel else "#" ++ channel }

/-- `parseAICommand` (route.ts lines 385-473): lower-case and trim the input,
try pattern 1, then pattern 2, and return `null` (here `none`) when neither
matches. -/
def parseAICommand (input : String) : Option ParsedCommand :=
  match searchRE pattern1 (normCmd input) with
  | some caps => some (pattern1Result caps)
  | none =>
      match searchRE pattern2 (normCmd input) with
      | some caps => some (pattern2Result caps)
      | none => none

/-! ### The POST handler's SlackService fallback (route.ts lines 562-604) -/

/-- The fixed remediation examples returned on parse failure (route.ts
lines 573-577). -/
def aiErrorExamples : List String :=
  ["send 'Hello team!' to #general",
   "message 'Meeting in 5 minutes' to @john",
   "send 'Good morning' to the development channel"]

/-- Outcome of the fallback path of the POST handler: either the 400 response
carrying the example commands, or a call of `slackService.sendMessage` with
the parsed channel and text. -/
inductive AIMessageOutcome where
  | parseError (examples : List String)
  | sendAttempt (channel : String) (text : String)
deriving DecidableEq, Repr

/-- The fallback path of the POST handler (route.ts lines 562-604): parse the
command; on failure respond with the fixed examples, otherwise hand the parsed
channel and message to the send capability unconditionally. -/
def aiMessageFallback (command : String) : AIMessageOutcome :=
  match parseAICommand command with
  | none => .parseError aiErrorExamples
  | some p => .sendAttempt p.channel p.message

/-- Modelled from the spec: the opaque platform-ID shape
`^[A-Z][A-Z0-9]{8,}$` that the spec's resolver step 1 claims is passed
through unchanged.  This definition follows the spec's words (the route code
itself contains no such regex) and exists only to be compared with the
code's `startsWithSigil` test. -/
def opaqueIdMatch (s : String) : Bool :=
  match s.data with
  | [] => false
  | c :: rest =>
      ('A' ≤ c && c ≤ 'Z') && rest.length ≥ 8 &&
      rest.all fun d => ('A' ≤ d && d ≤ 'Z') || ('0' ≤ d && d ≤ '9')

/-! ### Engine lemmas

Every character a regex match captures is a character of the searched string;
this drives the claims that quantify over all instructions. -/

/-- Every result of `matchRE` has a remaining suffix and captured texts that
are sublists of the input. -/
theorem matchRE_sublist (re : RE) : ∀ (input : Str) (pr : Caps × Str),
    pr ∈ matchRE re input →
    pr.2.Sublist input ∧ ∀ q ∈ pr.1, (Prod.snd q).Sublist input := by
  induction re with
  | lit s =>
      intro input pr h
      simp only [matchRE] at h
      split at h
      · rw [List.mem_singleton] at h
        subst h
        exact ⟨List.drop_sublist _ _, by simp⟩
      · exact absurd h (List.not_mem_nil _)
  | cls p =>
      intro input pr h
      match input with
      | [] => exact absurd h (List.not_mem_nil _)
      | c :: rest =>
          simp only [matchRE] at h
          split at h
          · rw [List.mem_singleton] at h
            subst h
            exact ⟨List.sublist_cons_self c rest, by simp⟩
          · exact absurd h (List.not_mem_nil _)
  | seq a b iha ihb =>
      intro input pr h
      simp only [matchRE, List.mem_flatMap, List.mem_map] at h
      obtain ⟨p, hp, q, hq, heq⟩ := h
      subst heq
      have Ha := iha input p hp
      have Hb := ihb p.2 q hq
      refine ⟨Hb.1.trans Ha.1, ?_⟩
      intro x hx
      rcases List.mem_append.mp hx with hx | hx
      · exact Ha.2 x hx
      · exact (Hb.2 x hx).trans Ha.1
  | alt a b iha ihb =>
      intro input pr h
      simp only [matchRE] at h
      rcases List.mem_append.mp h with h | h
      · exact iha input pr h
      · exact ihb input pr h
  | opt a iha =>
      intro input pr h
      simp only [matchRE] at h
      rcases List.mem_append.mp h with h | h
      · exact iha input pr h
      · rw [List.mem_singleton] at h
        subst h
        exact ⟨List.Sublist.refl input, by simp⟩
  | plus greedy p =>
      intro input pr h
      simp only [matchRE, List.mem_map] at h
      obtain ⟨n, _, heq⟩ := h
      subst heq
      exact ⟨List.drop_sublist _ _, by simp⟩
  | group i a iha =>
      intro input pr h
      simp only [matchRE, List.mem_map] at h
      obtain ⟨p, hp, heq⟩ := h
      subst heq
      have Ha := iha input p hp
      refine ⟨Ha.1, ?_⟩
      intro x hx
      rcases List.mem_cons.mp hx with hx | hx
      · subst hx
        exact List.take_sublist _ _
      · exact Ha.2 x hx
  | eos =>
      intro input pr h
      simp only [matchRE] at h
      split at h
      · rw [List.mem_singleton] at h
        subst h
        exact ⟨List.nil_sublist input, by simp⟩
      · exact absurd h (List.not_mem_nil _)

/-- Every capture returned by `searchRE` is a sublist of the searched
string. -/
theorem searchRE_caps_sublist (re : RE) :
    ∀ (input : Str) (caps : Caps), searchRE re input = some caps →
      ∀ q ∈ caps, (Prod.snd q).Sublist input := by
  intro input
  induction input with
  | nil =>
      intro caps h q hq
      rw [searchRE] at h
      cases hm : matchRE re [] with
      | cons p tl =>
          rw [hm] at h
          simp only [Option.some.injEq] at h
          subst h
          exact (matchRE_sublist re [] p (hm ▸ List.mem_cons_self p tl)).2 q hq
      | nil => rw [hm] at h; exact absurd h (by simp)
  | cons c rest ih =>
      intro caps h q hq
      rw [searchRE] at h
      cases hm : matchRE re (c :: rest) with
      | cons p tl =>
          rw [hm] at h
          simp only [Option.some.injEq] at h
          subst h
          exact (matchRE_sublist re _ p (hm ▸ List.mem_cons_self p tl)).2 q hq
      | nil =>
          rw [hm] at h
          exact ((ih caps h q hq).trans (List.sublist_cons_self c rest))

/-- Characters surviving `jsTrim` come from the original string. -/
theorem mem_of_mem_jsTrim {c : Char} {s : Str} (h : c ∈ jsTrim s) : c ∈ s := by
  unfold jsTrim at h
  rw [List.mem_reverse] at h
  have h2 : c ∈ (s.dropWhile isWs).reverse :=
    List.Sublist.mem h (List.dropWhile_sublist _)
  rw [List.mem_reverse] at h2
  exact List.Sublist.mem h2 (List.dropWhile_sublist _)

/-- The code point of `Char.toLower` is never in the upper-case ASCII range:
upper-case letters are shifted into a-z and every other character is fixed. -/
theorem toLower_toNat_notUpper (c : Char) :
    (Char.toLower c).toNat < 65 ∨ 90 < (Char.toLower c).toNat := by
  unfold Char.toLower
  by_cases h : c.toNat ≥ 65 ∧ c.toNat ≤ 90
  · obtain ⟨h1, h2⟩ := h
    simp only [if_pos (And.intro h1 h2)]
    generalize c.toNat = n at h1 h2
    interval_cases n <;> (right; decide)
  · simp only [if_neg h]
    omega

/-- A lower-cased string contains neither `'C'` nor `'D'`. -/
theorem mem_jsToLower_ne_CD {c : Char} {s : Str} (h : c ∈ jsToLower s) :
    c ≠ 'C' ∧ c ≠ 'D' := by
  unfold jsToLower at h
  rw [List.mem_map] at h
  obtain ⟨c', _, rfl⟩ := h
  constructor
  · intro heq
    have := toLower_toNat_notUpper c'
    rw [heq] at this
    revert this
    decide
  · intro heq
    have := toLower_toNat_notUpper c'
    rw [heq] at this
    revert this
    decide

/-- Characters of a trimmed capture of a match against the normalized
command are characters of the normalized command. -/
theorem mem_normCmd_of_mem_capStr {s : String} {caps : Caps} {i : Nat}
    {re : RE} (h : searchRE re (normCmd s) = some caps) {c : Char}
    (hc : c ∈ (capStr caps i).data) : c ∈ normCmd s := by
  have hc' : c ∈ jsTrim ((getCap caps i).getD []) := hc
  have hc2 := mem_of_mem_jsTrim hc'
  cases hg : getCap caps i with
  | none => rw [hg] at hc2; exact absurd hc2 (List.not_mem_nil c)
  | some t =>
      rw [hg] at hc2
      unfold getCap at hg
      rw [Option.map_eq_some'] at hg
      obtain ⟨q, hq, hqt⟩ := hg
      have hmem := List.mem_of_find?_eq_some hq
      have hsub := searchRE_caps_sublist re (normCmd s) caps h q hmem
      exact List.Sublist.mem (hqt ▸ hc2) hsub

/-- A trimmed capture of a match against the normalized command never has a
character `'C'` or `'D'`: the command was lower-cased first. -/
theorem capStr_ne_CD {s : String} {caps : Caps} {i : Nat} {re : RE}
    (h : searchRE re (normCmd s) = some caps) {c : Char}
    (hc : c ∈ (capStr caps i).data) : c ≠ 'C' ∧ c ≠ 'D' := by
  have h1 := mem_normCmd_of_mem_capStr h hc
  have h2 : c ∈ jsToLower s.data := mem_of_mem_jsTrim h1
  exact mem_jsToLower_ne_CD h2

/-- A string whose characters avoid the first character of `pre` (here a
one-character prefix) does not start with `pre`. -/
theorem strStartsWith_eq_false {t : String} {c : Char}
    (h : ∀ x ∈ t.data, x ≠ c) : strStartsWith t (String.mk [c]) = false := by
  unfold strStartsWith
  cases ht : t.data with
  | nil => rfl
  | cons x r =>
      have hx : x ≠ c := h x (ht ▸ List.mem_cons_self x r)
      simp only [List.isPrefixOf]
      rw [beq_eq_false_iff_ne.mpr (Ne.symm hx)]
      rfl

/-- A lower-case ASCII letter is not JavaScript whitespace: the whitespace
code points all lie outside 97-122. -/
theorem lower_not_ws {x : Char} (h1 : 97 ≤ x.toNat) (h2 : x.toNat ≤ 122) :
    isWs x = false := by
  cases hb : isWs x with
  | false => rfl
  | true =>
      exfalso
      unfold isWs at hb
      obtain ⟨c', hc', hbeq⟩ := List.contains_iff_exists_mem_beq.mp hb
      rw [eq_of_beq hbeq] at h1 h2
      fin_cases hc' <;>
        first
          | exact absurd h1 (by decide)
          | exact absurd h2 (by decide)

/-- A lower-case ASCII letter is a fixed point of `Char.toLower`. -/
theorem lower_toLower {x : Char} (h1 : 97 ≤ x.toNat) (h2 : x.toNat ≤ 122) :
    Char.toLower x = x := by
  show (if x.toNat ≥ 65 ∧ x.toNat ≤ 90 then Char.ofNat (x.toNat + 32) else x) = x
  rw [if_neg (by omega)]

/-- `dropWhile` keeps a list whose head fails the predicate. -/
theorem dropWhile_cons_false {p : Char → Bool} {a : Char} {l : Str}
    (h : p a = false) : List.dropWhile p (a :: l) = a :: l := by
  rw [List.dropWhile_cons, h]
  rfl

/-- `replaceFirstWsRun` walks past a non-whitespace head character. -/
theorem rfwr_cons_false {a : Char} {l : Str} (h : isWs a = false) :
    replaceFirstWsRun (a :: l) = a :: replaceFirstWsRun l := by
  conv_lhs => rw [replaceFirstWsRun]
  rw [h]
  rfl

/-- `stripArticle` removes a leading `the ` (and the whole whitespace run
after it) when the next character is not whitespace. -/
theorem stripArticle_the {x : Char} (hx : isWs x = false) (rest : Str) :
    stripArticle ('t' :: 'h' :: 'e' :: ' ' :: x :: rest) = x :: rest := by
  have h0 : stripArticle ('t' :: 'h' :: 'e' :: ' ' :: x :: rest) =
      List.dropWhile isWs (x :: rest) := rfl
  rw [h0, dropWhile_cons_false hx]

/-! ## Claims -/

/-- Claim C1, counterexample: the parser does NOT preserve the casing of the
quoted message.  `parseAICommand` lower-cases the whole command before
matching, so the extracted message of `send 'Hello team!' to #general` is
`hello team!`, not `Hello team!` as the claim states. -/
theorem claim1_counterexample :
    parseAICommand "send 'Hello team!' to #general" ≠
      some { message := "Hello team!", channel := "#general" } := by decide

/-- Claim C1 as amended: for the input `send 'Hello team!' to #general` the
parser extracts the target `#general` (which resolves to `#general`
unchanged) and the message body `hello team!` — the quoted text with its
casing folded to lower case by the initial `toLowerCase()` of the command. -/
theorem claim1_theorem :
    parseAICommand "send 'Hello team!' to #general" =
      some { message := "hello team!", channel := "#general" } := by decide

/-- Claim C2, counterexample: the code's pass-through test is only
`startsWith('#'/'@'/'C'/'D')`, not the opaque-ID pattern
`^[A-Z][A-Z0-9]{8,}$`.  The phrase `U123456789` matches the opaque-ID
pattern, yet the resolver does not return it unchanged: it is cleaned
(lower-cased) and prefixed, giving `#u123456789`. -/
theorem claim2_counterexample :
    opaqueIdMatch "U123456789" = true ∧
      resolveChannel "U123456789" = "#u123456789" ∧
      resolveChannel "U123456789" ≠ "U123456789" := by decide

/-- Claim C2 as amended: every target phrase that starts with `#`, `@`,
upper-case `C` or upper-case `D` is returned by the resolver unchanged (in
particular `#general`, `@john` and `C0123456789`); phrases matching the
opaque-ID pattern with another leading letter are not passed through. -/
theorem claim2_theorem :
    (∀ p : String, startsWithSigil p = true → resolveChannel p = p) ∧
      resolveChannel "#general" = "#general" ∧
      resolveChannel "@john" = "@john" ∧
      resolveChannel "C0123456789" = "C0123456789" := by
  refine ⟨fun p hp => ?_, by decide, by decide, by decide⟩
  simp [resolveChannel, hp]

/-- Claim C2 witness: the amended pass-through theorem applied to the
concrete sigil phrase `#general`. -/
theorem claim2_witness : resolveChannel "#general" = "#general" :=
  claim2_theorem.1 "#general" (by decide)

/-- Claim C3, counterexample: a quoted message of one blank parses
successfully: the regex class `[^'"`]+` accepts the blank and the
`.trim()` of the capture then yields the empty message, which the POST
fallback hands to the send capability unchecked — contradicting the claim
that the parser never hands an empty `messageBody` onward. -/
theorem claim3_counterexample :
    parseAICommand "send ' ' to #general" =
        some { message := "", channel := "#general" } ∧
      aiMessageFallback "send ' ' to #general" =
        .sendAttempt "#general" "" := by decide

/-- Claim C3 as amended: `send '' to #general` is indeed a parse failure
(the quoted-text pattern requires at least one character between the
quotes), and the fallback answers it with the parse-error response; but a
whitespace-only quoted message is NOT rejected: `send ' ' to #general`
parses with an empty trimmed message body that is handed to the send
capability — there is no emptiness check at the caller. -/
theorem claim3_theorem :
    parseAICommand "send '' to #general" = none ∧
      aiMessageFallback "send '' to #general" = .parseError aiErrorExamples ∧
      parseAICommand "send ' ' to #general" =
        some { message := "", channel := "#general" } ∧
      aiMessageFallback "send ' ' to #general" =
        .sendAttempt "#general" "" := by decide

/-- Claim C4, counterexample: the quote delimiters of pattern A are
character classes, not a backreference, so an opening `'` closed by `"`
still matches: pattern A matches `send 'hi" to #general` and the parser
returns the quoted text `hi`. -/
theorem claim4_counterexample :
    (searchRE pattern1 (normCmd "send 'hi\" to #general")).isSome = true ∧
      parseAICommand "send 'hi\" to #general" =
        some { message := "hi", channel := "#general" } := by decide

/-- Claim C4 as amended: the quoted message of pattern A may open with any
of `'`, `"`, backtick and close with any of the three independently — the
closing quote character need not equal the opening one. -/
theorem claim4_theorem :
    ∀ q1 ∈ ['\'', '"', backtick], ∀ q2 ∈ ['\'', '"', backtick],
      parseAICommand
          (String.mk ("send ".data ++ [q1] ++ "hi".data ++ [q2] ++
            " to #general".data)) =
        some { message := "hi", channel := "#general" } := by decide

/-- Claim C4 witness: the amended theorem at the mixed pair `'` and `"`. -/
theorem claim4_witness :
    parseAICommand
        (String.mk ("send ".data ++ ['\''] ++ "hi".data ++ ['"'] ++
          " to #general".data)) =
      some { message := "hi", channel := "#general" } :=
  claim4_theorem '\'' (by decide) '"' (by decide)

/-- Claim C5, counterexample: the hyphenation replace has no global flag, so
only the FIRST internal whitespace run becomes a hyphen: the claim's own
example three-word phrase `my cool club` cleans to `my-cool club` (second
space kept), not `my-cool-club`, and the resolver output keeps the space. -/
theorem claim5_counterexample :
    cleanChannelPhrase "my cool club".data = "my-cool club".data ∧
      resolveChannel "my cool club" = "#my-cool club" ∧
      resolveChannel "my cool club" ≠ "#my-cool-club" := by decide

/-- Claim C5 as amended: for a sigil-free phrase the cleaning chain
lower-cases, strips one leading article, strips a trailing ` channel` or
` room`, and collapses only the FIRST internal whitespace run to a single
hyphen, leaving later runs intact.  Shown on the schematic phrase
`the x  y z channel` (x, y, z any lower-case letters; the first run has two
spaces and collapses to one hyphen, the second run survives), and on the
concrete mixed-case `My Cool Club`, which lower-cases to `my-cool club`. -/
theorem claim5_theorem :
    (∀ x y z : Char,
        97 ≤ x.toNat → x.toNat ≤ 122 →
        97 ≤ y.toNat → y.toNat ≤ 122 →
        97 ≤ z.toNat → z.toNat ≤ 122 →
        cleanChannelPhrase
            ('t' :: 'h' :: 'e' :: ' ' :: x :: ' ' :: ' ' :: y :: ' ' :: z ::
              ' ' :: 'c' :: 'h' :: 'a' :: 'n' :: 'n' :: 'e' :: 'l' :: []) =
          x :: '-' :: y :: ' ' :: z :: []) ∧
      cleanChannelPhrase "My Cool Club".data = "my-cool club".data := by
  refine ⟨fun x y z hx1 hx2 hy1 hy2 hz1 hz2 => ?_, by decide⟩
  have hx := lower_not_ws hx1 hx2
  have hy := lower_not_ws hy1 hy2
  have hz := lower_not_ws hz1 hz2
  unfold cleanChannelPhrase
  have e1 : jsToLower
      ('t' :: 'h' :: 'e' :: ' ' :: x :: ' ' :: ' ' :: y :: ' ' :: z ::
        ' ' :: 'c' :: 'h' :: 'a' :: 'n' :: 'n' :: 'e' :: 'l' :: []) =
      't' :: 'h' :: 'e' :: ' ' :: x.toLower :: ' ' :: ' ' :: y.toLower ::
        ' ' :: z.toLower :: ' ' :: 'c' :: 'h' :: 'a' :: 'n' :: 'n' :: 'e' ::
        'l' :: [] := rfl
  rw [e1, lower_toLower hx1 hx2, lower_toLower hy1 hy2, lower_toLower hz1 hz2,
    stripArticle_the hx]
  have e3 : stripTrailingWord "channel".data
      (x :: ' ' :: ' ' :: y :: ' ' :: z :: ' ' :: 'c' :: 'h' :: 'a' :: 'n' ::
        'n' :: 'e' :: 'l' :: []) =
      if (List.dropWhile isWs
            (z :: ' ' :: y :: ' ' :: ' ' :: x :: [])).reverse.length < 7 then
        (List.dropWhile isWs (z :: ' ' :: y :: ' ' :: ' ' :: x :: [])).reverse
      else
        x :: ' ' :: ' ' :: y :: ' ' :: z :: ' ' :: 'c' :: 'h' :: 'a' :: 'n' ::
          'n' :: 'e' :: 'l' :: [] := rfl
  rw [e3, dropWhile_cons_false hz]
  have e4 : (if (z :: ' ' :: y :: ' ' :: ' ' :: x :: []).reverse.length < 7 then
        (z :: ' ' :: y :: ' ' :: ' ' :: x :: []).reverse
      else
        x :: ' ' :: ' ' :: y :: ' ' :: z :: ' ' :: 'c' :: 'h' :: 'a' :: 'n' ::
          'n' :: 'e' :: 'l' :: []) =
      x :: ' ' :: ' ' :: y :: ' ' :: z :: [] := rfl
  rw [e4]
  have e5 : List.isSuffixOf "room".data
      (x :: ' ' :: ' ' :: y :: ' ' :: z :: []) = false :=
    Bool.and_false ('m' == z)
  unfold stripTrailingWord
  rw [e5, if_neg (show ¬(false = true) by decide)]
  rw [rfwr_cons_false hx]
  have e7 : replaceFirstWsRun (' ' :: ' ' :: y :: ' ' :: z :: []) =
      '-' :: List.dropWhile isWs (y :: ' ' :: z :: []) := rfl
  rw [e7, dropWhile_cons_false hy]
  show jsTrim (x :: '-' :: y :: ' ' :: z :: []) = x :: '-' :: y :: ' ' :: z :: []
  unfold jsTrim
  rw [dropWhile_cons_false hx]
  have e8 : (x :: '-' :: y :: ' ' :: z :: []).reverse =
      z :: ' ' :: y :: '-' :: x :: [] := rfl
  rw [e8, dropWhile_cons_false hz]
  rfl

/-- Claim C5 witness: the amended cleaning theorem at the concrete letters
`d`, `e`, `f`: the phrase `the d  e f channel` cleans to `d-e f`. -/
theorem claim5_witness :
    cleanChannelPhrase
        ('t' :: 'h' :: 'e' :: ' ' :: 'd' :: ' ' :: ' ' :: 'e' :: ' ' :: 'f' ::
          ' ' :: 'c' :: 'h' :: 'a' :: 'n' :: 'n' :: 'e' :: 'l' :: []) =
      'd' :: '-' :: 'e' :: ' ' :: 'f' :: [] :=
  claim5_theorem.1 'd' 'e' 'f' (by decide) (by decide) (by decide) (by decide)
    (by decide) (by decide)

/-- Claim C6, counterexample: `resolve("Developers")` is NOT `#dev`: the
phrase starts with upper-case `D`, so the sigil pass-through test fires
before any cleaning or synonym lookup and the phrase is returned
unchanged. -/
theorem claim6_counterexample :
    resolveChannel "Developers" = "Developers" ∧
      resolveChannel "Developers" ≠ "#dev" := by decide

/-- Claim C6 as amended: the synonym table has exactly the nineteen listed
entries and lookup is exact-match on the cleaned phrase — every table key
resolves to `#` plus its value, `the development channel` resolves to
`#dev` and `engineering` to `#engineering`; but the capitalised phrase
`Developers` passes the leading-`D` sigil test and is returned unchanged
(only its lower-case form `developers` resolves to `#dev`). -/
theorem claim6_theorem :
    (∀ p ∈ channelMappings, resolveChannel p.1 = "#" ++ p.2) ∧
      resolveChannel "the development channel" = "#dev" ∧
      resolveChannel "developers" = "#dev" ∧
      resolveChannel "engineering" = "#engineering" ∧
      resolveChannel "Developers" = "Developers" := by decide

/-- Claim C6 witness: the table-wide part of the amended theorem applied to
the entry `development → dev`. -/
theorem claim6_witness :
    resolveChannel "development" = "#" ++ "dev" :=
  claim6_theorem.1 ("development", "dev") (by decide)

/-- Claim C7, counterexample: an unrecognized phrase does NOT always degrade
to `#` followed by the cleaned phrase.  The member access
`channelMappings[cleanChannel]` reaches the truthy inherited
`Object.prototype` members, so the phrase `constructor` — sigil-free,
cleaning to itself, and absent from the synonym table — is substituted by
the inherited `constructor` member (the `Object` function), giving
`#function Object() { [native code] }` instead of `#constructor`; the whole
instruction `send 'x' to constructor` parses to that channel. -/
theorem claim7_counterexample :
    startsWithSigil "constructor" = false ∧
      cleanChannelPhrase "constructor".data = "constructor".data ∧
      (channelMappings.find? fun pr => pr.1 == "constructor") = none ∧
      resolveChannel "constructor" = "#function Object() { [native code] }" ∧
      resolveChannel "constructor" ≠ "#constructor" ∧
      parseAICommand "send 'x' to constructor" =
        some { message := "x"
               channel := "#function Object() { [native code] }" } := by decide

/-- Claim C7 as amended: resolution never fails — the resolver is total and,
for every phrase that neither passes the sigil test nor hits the synonym
table nor cleans to an inherited `Object.prototype` member name, it degrades
to `#` followed by the cleaned phrase, in particular
`resolve("bowling-club") = "#bowling-club"`; a phrase cleaning to an
inherited member name instead gets that member's stringified value
substituted: `resolve("constructor") = "#function Object() { [native code] }"`
and `resolve("__proto__") = "#[object Object]"`. -/
theorem claim7_theorem :
    (∀ p : String, startsWithSigil p = false →
        lookupMapping (String.mk (cleanChannelPhrase p.data)) = none →
        resolveChannel p = "#" ++ String.mk (cleanChannelPhrase p.data)) ∧
      resolveChannel "bowling-club" = "#bowling-club" ∧
      resolveChannel "constructor" = "#function Object() { [native code] }" ∧
      resolveChannel "__proto__" = "#[object Object]" := by
  refine ⟨fun p h1 h2 => ?_, by decide, by decide, by decide⟩
  simp [resolveChannel, h1, h2]

/-- Claim C7 witness: the fallback equation at the concrete unknown phrase
`bowling-club`, which misses both the synonym table and the inherited
members. -/
theorem claim7_witness :
    resolveChannel "bowling-club" =
      "#" ++ String.mk (cleanChannelPhrase "bowling-club".data) :=
  claim7_theorem.1 "bowling-club" (by decide) (by decide)

/-- Claim C8: pattern A is always attempted before pattern B — whenever
pattern 1 matches the normalized command (whether or not pattern 2 also
matches), the parser returns pattern 1's result. -/
theorem claim8_theorem :
    ∀ (s : String) (caps : Caps),
      searchRE pattern1 (normCmd s) = some caps →
      (searchRE pattern2 (normCmd s)).isSome = true →
      parseAICommand s = some (pattern1Result caps) := by
  intro s caps h1 _
  unfold parseAICommand
  rw [h1]

/-- Claim C8 witness: `tell team that send 'hi' to #general` matches both
patterns, and the parser returns pattern 1's result (message `hi` to
`#general`), not pattern 2's. -/
theorem claim8_witness :
    parseAICommand "tell team that send 'hi' to #general" =
      some (pattern1Result [(1, "hi".data), (2, "#general".data)]) :=
  claim8_theorem "tell team that send 'hi' to #general"
    [(1, "hi".data), (2, "#general".data)] (by decide) (by decide)

/-- Claim C9: the parser is total and signals failure by `none`:
`xyzzy plugh` matches neither pattern, the POST fallback answers it with
the parse-error response carrying the fixed list of exactly 3 canonical
example commands. -/
theorem claim9_theorem :
    parseAICommand "xyzzy plugh" = none ∧
      aiMessageFallback "xyzzy plugh" = .parseError aiErrorExamples ∧
      aiErrorExamples.length = 3 := by decide

/-- Claim C10: in the pattern-B branch a target without a leading `#` or `@`
is returned as `#` plus the raw trimmed target — no article stripping, no
hyphenation, no synonym lookup.  (The branch also tests for leading `C`/`D`,
but the target is carved out of the lower-cased command, which contains
neither, so `#`/`@` are the only prefixes that matter.)  In particular
`tell development that hi` yields channel `#development`, not `#dev`. -/
theorem claim10_theorem :
    (∀ (s : String) (caps : Caps),
      searchRE pattern1 (normCmd s) = none →
      searchRE pattern2 (normCmd s) = some caps →
      strStartsWith (capStr caps 1) "#" = false →
      strStartsWith (capStr caps 1) "@" = false →
      parseAICommand s =
        some { message := capStr caps 2, channel := "#" ++ capStr caps 1 }) ∧
    parseAICommand "tell development that hi" =
      some { message := "hi", channel := "#development" } := by
  refine ⟨fun s caps h1 h2 h3 h4 => ?_, by decide⟩
  have hC : strStartsWith (capStr caps 1) "C" = false :=
    strStartsWith_eq_false fun x hx => (capStr_ne_CD h2 hx).1
  have hD : strStartsWith (capStr caps 1) "D" = false :=
    strStartsWith_eq_false fun x hx => (capStr_ne_CD h2 hx).2
  have hsig : startsWithSigil (capStr caps 1) = false := by
    unfold startsWithSigil
    rw [h3, h4, hC, hD]
    rfl
  unfold parseAICommand
  rw [h1, h2]
  simp [pattern2Result, hsig]

/-- Claim C10 witness: the pattern-B prefixing theorem applied to the
concrete instruction `tell development that hi`. -/
theorem claim10_witness :
    parseAICommand "tell development that hi" =
      some { message := capStr [(1, "development".data), (2, "hi".data)] 2
             channel := "#" ++ capStr [(1, "development".data), (2, "hi".data)] 1 } :=
  claim10_theorem.1 "tell development that hi"
    [(1, "development".data), (2, "hi".data)]
    (by decide) (by decide) (by decide) (by decide)

end SlackAI
